import Mathlib

/-!
Verification development for the investing-dashboard scraper
(`src/index.ts`).  The TypeScript source is shallowly embedded here:

* JavaScript numbers are modelled by `JsNum`, an exact rational type whose
  operations are fully kernel-computable (structural fuel-based gcd), so
  concrete runs of the embedded program can be settled by `decide`.  This
  is the exact-arithmetic idealisation of binary64; where a claim is
  specifically about IEEE-754 rounding (`growthPercentage` exactness) a
  separate binary64 rounding model `fpRound`/`fpGrowthPercentage` of the
  same source line is used.
* Thrown JavaScript errors become the inductive `JsError`; fallible code
  returns `Except JsError α`.  The source throws untyped `Error` values
  distinguished by message (plus puppeteer's `TimeoutError` class); they
  are modelled as distinct constructors carrying the message payload.
* External browser interactions (page navigation, selector waits, row
  scraping) are oracles supplied as explicit environment records; resource
  actions (page/tab open and close, browser launch and close, output-file
  open, close and writes) are recorded in a trace of `Event`s.
-/

set_option maxRecDepth 100000

/-- Fuel-based Euclid so that gcd reduces in the kernel; `gcdAux (b+1) a b`
computes `Nat.gcd a b` (the second argument strictly decreases, so `b + 1`
steps always suffice). -/
def gcdAux : Nat → Nat → Nat → Nat
  | 0, a, _ => a
  | fuel + 1, a, b => if b = 0 then a else gcdAux fuel b (a % b)

/-- Kernel-computable gcd. -/
def natGcd (a b : Nat) : Nat := gcdAux (b + 1) a b

/-- Exact rational model of a JavaScript number: numerator and (positive)
denominator, kept normalized by the smart constructor `JsNum.norm`.
This is the exact-arithmetic idealisation of the runtime's binary64
numbers (overflow, NaN and rounding are not modelled here; see `fpRound`
for the rounding refinement used by the claim about `growthPercentage`
exactness). -/
structure JsNum where
  num : Int
  den : Nat
deriving DecidableEq

/-- Normalizing constructor: sign into the numerator, divide out the gcd.
A zero denominator (JavaScript would produce Infinity or NaN) is mapped to
the junk value 0; no claim exercises that case. -/
def JsNum.norm (n d : Int) : JsNum :=
  if d = 0 then ⟨0, 1⟩
  else
    let n' : Int := if d < 0 then -n else n
    let d' : Nat := d.natAbs
    let g : Nat := natGcd n'.natAbs d'
    if g = 0 then ⟨0, 1⟩ else ⟨n' / (g : Int), d' / g⟩

def JsNum.ofInt (n : Int) : JsNum := ⟨n, 1⟩

/-- Coercion of a natural literal. -/
def natQ (n : Nat) : JsNum := ⟨(n : Int), 1⟩

instance (n : Nat) : OfNat JsNum n := ⟨natQ n⟩

def JsNum.add (a b : JsNum) : JsNum :=
  JsNum.norm (a.num * (b.den : Int) + b.num * (a.den : Int)) ((a.den : Int) * (b.den : Int))

def JsNum.neg (a : JsNum) : JsNum := ⟨-a.num, a.den⟩

def JsNum.sub (a b : JsNum) : JsNum :=
  JsNum.norm (a.num * (b.den : Int) - b.num * (a.den : Int)) ((a.den : Int) * (b.den : Int))

def JsNum.mul (a b : JsNum) : JsNum :=
  JsNum.norm (a.num * b.num) ((a.den : Int) * (b.den : Int))

def JsNum.div (a b : JsNum) : JsNum :=
  JsNum.norm (a.num * (b.den : Int)) ((a.den : Int) * b.num)

instance : Add JsNum := ⟨JsNum.add⟩
instance : Neg JsNum := ⟨JsNum.neg⟩
instance : Sub JsNum := ⟨JsNum.sub⟩
instance : Mul JsNum := ⟨JsNum.mul⟩
instance : Div JsNum := ⟨JsNum.div⟩

/-- Math.floor on the exact rational value (floored integer division). -/
def JsNum.floor (a : JsNum) : Int := Int.fdiv a.num (a.den : Int)

/-- Boolean strict comparison (denominators are positive). -/
def JsNum.ltB (a b : JsNum) : Bool := decide (a.num * (b.den : Int) < b.num * (a.den : Int))

/-- Boolean non-strict comparison (denominators are positive). -/
def JsNum.leB (a b : JsNum) : Bool := decide (a.num * (b.den : Int) ≤ b.num * (a.den : Int))

/-- Errors thrown by the embedded program.  The source throws untyped
`Error` objects told apart by message (`empty …`, `not a number …`,
`not found`, `acceptTerms not found`) plus puppeteer's `TimeoutError`
class; each becomes its own constructor with the dynamic payload. -/
inductive JsError where
  | emptyValue (ticker : Option String)
  | notANumber (text : String)
  | elementTimeout (msg : String)
  | notFound
  | generic (msg : String)
deriving DecidableEq

/-- Decidable equality for `Except`, so concrete runs settle by `decide`. -/
def exceptDecEq {ε α : Type} [DecidableEq ε] [DecidableEq α] :
    (a b : Except ε α) → Decidable (a = b)
  | .error e, .error f =>
    if h : e = f then .isTrue (by rw [h]) else .isFalse (by simp [h])
  | .error _, .ok _ => .isFalse (by simp)
  | .ok _, .error _ => .isFalse (by simp)
  | .ok a, .ok b =>
    if h : a = b then .isTrue (by rw [h]) else .isFalse (by simp [h])

instance {ε α : Type} [DecidableEq ε] [DecidableEq α] : DecidableEq (Except ε α) :=
  exceptDecEq

/-- Digit run value: `foldl (10*acc + digit)` over an all-digit char list. -/
def digitsVal (ds : List Char) : Nat :=
  ds.foldl (fun a c => 10 * a + (c.toNat - 48)) 0

/-- Power of ten with integer exponent, as an exact rational. -/
def pow10 (e : Int) : JsNum :=
  if 0 ≤ e then natQ (10 ^ e.toNat) else ⟨1, 10 ^ (-e).toNat⟩

/-- Whitespace skipped by JavaScript `parseFloat` before the literal
(the common StrWhiteSpace characters). -/
def isWsChar (c : Char) : Bool := c = ' ' ∨ c = '\t' ∨ c = '\n' ∨ c = '\r'

/-- Unsigned decimal prefix of `parseFloat`: a digit run, optionally
followed by a point and a second digit run (at least one digit overall);
returns the value together with the unconsumed remainder. -/
def parseUnsignedDec (cs : List Char) : Option (JsNum × List Char) :=
  let ds := cs.takeWhile Char.isDigit
  match cs.dropWhile Char.isDigit with
  | c :: rest2 =>
    if c = '.' then
      let fs := rest2.takeWhile Char.isDigit
      let rest3 := rest2.dropWhile Char.isDigit
      if ds = [] ∧ fs = [] then none
      else some (natQ (digitsVal ds) + natQ (digitsVal fs) / natQ (10 ^ fs.length), rest3)
    else if ds = [] then none else some (natQ (digitsVal ds), c :: rest2)
  | [] => if ds = [] then none else some (natQ (digitsVal ds), [])

/-- Optional exponent part of `parseFloat` (`e`/`E`, optional sign, digit
run); if no digit follows the marker the exponent is not consumed, as in
JavaScript (`parseFloat "1e"` is `1`). -/
def applyExp (v : JsNum) (cs : List Char) : JsNum :=
  match cs with
  | c :: rest =>
    if c = 'e' ∨ c = 'E' then
      let rest2 := match rest with
        | '+' :: r => r
        | r => r
      let negExp : Bool := match rest with
        | '-' :: _ => true
        | _ => false
      let rest3 := match rest with
        | '-' :: r => r
        | _ => rest2
      let es := rest3.takeWhile Char.isDigit
      if es = [] then v
      else v * pow10 (if negExp then -(digitsVal es : Int) else (digitsVal es : Int))
    else v
  | [] => v

/-- Decimal literal with optional exponent, value only. -/
def parseUnsignedDecExp (cs : List Char) : Option JsNum :=
  match parseUnsignedDec cs with
  | none => none
  | some (v, rest) => some (applyExp v rest)

/-- Signed decimal literal of `parseFloat`. -/
def parseSigned (cs : List Char) : Option JsNum :=
  match cs with
  | [] => none
  | c :: tl =>
    if c = '-' then (parseUnsignedDecExp tl).map (fun v => -v)
    else if c = '+' then parseUnsignedDecExp tl
    else parseUnsignedDecExp (c :: tl)

/-- Model of the JavaScript builtin `parseFloat` used at src/index.ts:7:
skip leading whitespace, then parse the longest signed decimal literal
(with optional fraction and exponent); `none` models a NaN result.  The
`Infinity` literal is outside the model (no claim touches it) and values
are exact rationals rather than rounded binary64. -/
def jsParseFloat (s : String) : Option JsNum :=
  parseSigned (s.toList.dropWhile isWsChar)

/-- Embedding of `getFloat` (src/index.ts:5-10): throw `empty ${ticker}`
on the empty string, parse with `parseFloat`, throw `not a number ${text}`
on NaN, otherwise return the parsed value. -/
def getFloat (text : String) (ticker : Option String) : Except JsError JsNum :=
  if text = "" then .error (.emptyValue ticker)
  else
    match jsParseFloat text with
    | none => .error (.notANumber text)
    | some v => .ok v

/-- Strict decimal value of a whole string, following the spec's words:
a non-empty numeric string is an optional minus sign, a digit run, and an
optional point with a digit run, and its value is the signed decimal value
of those digits.  Used to compare `getFloat` against the specified
contract (refinement direction of claim C5). -/
def specUnsignedValue (cs : List Char) : Option JsNum :=
  let ds := cs.takeWhile Char.isDigit
  match cs.dropWhile Char.isDigit with
  | [] => if ds = [] then none else some (natQ (digitsVal ds))
  | c :: fs =>
    if c = '.' ∧ fs.all Char.isDigit ∧ ¬(ds = [] ∧ fs = []) then
      some (natQ (digitsVal ds) + natQ (digitsVal fs) / natQ (10 ^ fs.length))
    else none

/-- Strict decimal value of a string, with an optional leading minus. -/
def specDecimalValue (s : String) : Option JsNum :=
  match s.toList with
  | [] => none
  | c :: tl =>
    if c = '-' then (specUnsignedValue tl).map (fun v => -v)
    else specUnsignedValue (c :: tl)

/-- One step of binary64 significand normalisation: double (or halve) the
magnitude until it lies in `[2^52, 2^53)`, tracking the binary exponent.
Structural fuel recursion so the kernel can evaluate it; 1200 steps cover
the whole binary64 exponent range and the loop stops as soon as the
significand is in range. -/
def fpNorm (m : JsNum) (e : Int) : Nat → JsNum × Int
  | 0 => (m, e)
  | fuel + 1 =>
    if JsNum.ltB m (natQ (2 ^ 52)) then fpNorm (m * 2) (e - 1) fuel
    else if JsNum.leB (natQ (2 ^ 53)) m then fpNorm (m / 2) (e + 1) fuel
    else (m, e)

/-- Round an exact rational to the nearest IEEE-754 binary64 value
(round half to even), for inputs in the normal range: normalise the
magnitude to a 53-bit significand position, round the significand to an
integer, and reattach sign and exponent.  Overflow and subnormals are not
modelled; every input a claim exercises is well inside the normal range. -/
def fpRound (q : JsNum) : JsNum :=
  if q.num = 0 then 0
  else
    let neg : Bool := q.num < 0
    let a : JsNum := ⟨(q.num.natAbs : Int), q.den⟩
    let p := fpNorm a 0 1200
    let f : Int := JsNum.floor p.1
    let r : JsNum := p.1 - JsNum.ofInt f
    let half : JsNum := ⟨1, 2⟩
    let m : Int :=
      if JsNum.ltB r half then f
      else if JsNum.ltB half r then f + 1
      else if f % 2 = 0 then f else f + 1
    let sm : Int := if neg then -m else m
    if 0 ≤ p.2 then JsNum.norm (sm * ((2 ^ p.2.toNat : Nat) : Int)) 1
    else JsNum.norm sm ((2 ^ (-p.2).toNat : Nat) : Int)

/-- Binary64 division: exact quotient, then one rounding. -/
def fpDiv (a b : JsNum) : JsNum := fpRound (a / b)

/-- Binary64 subtraction: exact difference, then one rounding. -/
def fpSub (a b : JsNum) : JsNum := fpRound (a - b)

/-- Binary64 multiplication: exact product, then one rounding. -/
def fpMul (a b : JsNum) : JsNum := fpRound (a * b)

/-- Embedding of `growthPercentage` (src/index.ts:198-200) under the
runtime's actual binary64 arithmetic: `((prediction / price) - 1) * 100`
with each operation rounded to the nearest double. -/
def fpGrowthPercentage (price prediction : JsNum) : JsNum :=
  fpMul (fpSub (fpDiv prediction price) 1) 100

/-- Embedding of `growthPercentage` (src/index.ts:198-200) under the
exact-arithmetic idealisation used by the report-pipeline model. -/
def growthPercentage (price prediction : JsNum) : JsNum :=
  ((prediction / price) - 1) * 100

/-- Resource and output actions the embedded program performs, recorded as
a trace: page/tab open and close (`browser.newPage` / `page.close`),
browser session launch and close (`puppeteer.launch` / `browser.close`),
output-file open, close and line writes (`fs.openSync` / `fs.closeSync` /
`fs.writeSync`, every write in the source is a single newline-terminated
line, recorded without its newline), and the inter-category pause. -/
inductive Event where
  | openPage
  | closePage
  | openBrowser
  | closeBrowser
  | openFd
  | closeFd
  | write (line : String)
  | sleep
deriving DecidableEq

/-- Outcome of one `page.waitForSelector` + `textContent` interaction, as
supplied by the environment: the wait timed out (puppeteer throws its
`TimeoutError`), resolved to null, or produced an element whose text
content may be null. -/
inductive ExtractOutcome where
  | timeout (msg : String)
  | nullHandle
  | text (t : Option String)
deriving DecidableEq

/-- Embedding of `getElTextFromXpath` (src/index.ts:16-22): a timeout
propagates as the puppeteer `TimeoutError`, a null handle throws
`not found`, and a null text content is normalised to the empty string. -/
def getElTextFromXpath : ExtractOutcome → Except JsError String
  | .timeout m => .error (.elementTimeout m)
  | .nullHandle => .error .notFound
  | .text none => .ok ""
  | .text (some t) => .ok t

/-- Model of JavaScript `String.prototype.replaceAll` for the
single-character patterns the source uses (`','`, `' '`, `'.'`); a longer
pattern is returned unchanged (never exercised). -/
def jsReplaceAll (s pat rep : String) : String :=
  match pat.toList with
  | [p] => String.mk (s.toList.foldr (fun c acc => if c = p then rep.toList ++ acc else c :: acc) [])
  | _ => s

/-- Environment of one secondary-adapter call: whether `page.goto` throws,
and the outcome of the single selector wait.  `browser.newPage` and
`page.setJavaScriptEnabled` are assumed to succeed (a failing `newPage`
opens no tab at all, so it is irrelevant to the resource claims). -/
structure PageEnv where
  gotoErr : Option JsError
  extract : ExtractOutcome
deriving DecidableEq

/-- Embedding of `getZacksPrediction` (src/index.ts:124-137): open a tab,
navigate, extract the prediction text with no error handling at all, close
the tab, then parse `text.substring(1).replaceAll(',','')`.  Errors from
navigation or extraction propagate before `page.close()` is reached; only
a parse failure happens after the close.  Returns the call's result
together with the page-resource trace. -/
def getZacksPrediction (env : PageEnv) : Except JsError JsNum × List Event :=
  match env.gotoErr with
  | some e => (.error e, [.openPage])
  | none =>
    match getElTextFromXpath env.extract with
    | .error e => (.error e, [.openPage])
    | .ok predictionText =>
      (getFloat (jsReplaceAll (predictionText.drop 1) "," "") none, [.openPage, .closePage])

/-- Embedding of `getAlphaspreadPrediction` (src/index.ts:139-165): the
selector wait is wrapped in try/catch; a puppeteer `TimeoutError` is
absorbed (logged) and the default text `'0'` is kept, any other error
rethrows before the close.  On the non-rethrow paths the tab is closed and
`text.replaceAll(' ','')` is parsed. -/
def getAlphaspreadPrediction (env : PageEnv) : Except JsError JsNum × List Event :=
  match env.gotoErr with
  | some e => (.error e, [.openPage])
  | none =>
    match getElTextFromXpath env.extract with
    | .error (.elementTimeout _) =>
      (getFloat (jsReplaceAll "0" " " "") none, [.openPage, .closePage])
    | .error e => (.error e, [.openPage])
    | .ok predictionText =>
      (getFloat (jsReplaceAll predictionText " " "") none, [.openPage, .closePage])

/-- Calendar date at day granularity, modelling a luxon `DateTime` after
`startOf('day')`; comparison is chronological (lexicographic). -/
structure Date where
  year : Int
  month : Nat
  day : Nat
deriving DecidableEq

/-- Chronological comparison of two dates, modelling `DateTime`'s `<=`
(both sides are at start of day). -/
def dateLe (a b : Date) : Bool :=
  decide (a.year < b.year ∨ (a.year = b.year ∧
    (a.month < b.month ∨ (a.month = b.month ∧ a.day ≤ b.day))))

/-- Month abbreviation table of the `LLL` format token. -/
def monthAbbrev (s : String) : Option Nat :=
  match s with
  | "Jan" => some 1
  | "Feb" => some 2
  | "Mar" => some 3
  | "Apr" => some 4
  | "May" => some 5
  | "Jun" => some 6
  | "Jul" => some 7
  | "Aug" => some 8
  | "Sep" => some 9
  | "Oct" => some 10
  | "Nov" => some 11
  | "Dec" => some 12
  | _ => none

/-- Model of luxon `DateTime.fromFormat(text, 'LLL dd, yyyy')`
(src/index.ts:81): a three-letter month abbreviation, a space, a
two-digit day, a comma and space, and a four-digit year; anything else is
an invalid DateTime, modelled as `none`. -/
def parseHistoryDate (s : String) : Option Date :=
  match s.toList with
  | [a, b, c, ' ', d1, d2, ',', ' ', y1, y2, y3, y4] =>
    match monthAbbrev (String.mk [a, b, c]) with
    | none => none
    | some m =>
      if d1.isDigit ∧ d2.isDigit ∧ y1.isDigit ∧ y2.isDigit ∧ y3.isDigit ∧ y4.isDigit then
        some ⟨(digitsVal [y1, y2, y3, y4] : Int), m, digitsVal [d1, d2]⟩
      else none
  | _ => none

/-- Filter predicate of src/index.ts:81: the row's leading cell parses
under the fixed format and is on or after the Monday cutoff.  An invalid
DateTime compares as NaN in JavaScript, so it is excluded, exactly as
`none` is here. -/
def rowInWeek (monday : Date) (e : List String) : Bool :=
  match parseHistoryDate (e.headD "") with
  | none => false
  | some d => dateLe monday d

/-- Embedding of the week-growth computation (src/index.ts:80-84).  The
filtered week history is indexed without any emptiness guard:
`weekHistory[weekHistory.length-1][2]` and `weekHistory[0][1]`.  When the
filtered list is empty, `weekHistory[-1]` is `undefined` and reading a
property of it throws a TypeError, modelled by the `generic` error; a row
shorter than the accessed cell likewise throws when `replaceAll` is called
on `undefined`.  A row that is a completely empty array would already make
`DateTime.fromFormat(e[0], …)` throw inside the filter callback, checked
first. -/
def weekGrowthCalc (rows : List (List String)) (monday : Date) (ticker : Option String) :
    Except JsError JsNum :=
  if rows.any (fun e => e.isEmpty) then
    .error (.generic "fromFormat input undefined")
  else
    let weekHistory := rows.filter (rowInWeek monday)
    match weekHistory.getLast? with
    | none => .error (.generic "cannot read properties of undefined")
    | some lastRow =>
      match lastRow.get? 2 with
      | none => .error (.generic "replaceAll of undefined")
      | some openCell =>
        match getFloat (jsReplaceAll openCell "," "") ticker with
        | .error e => .error e
        | .ok weekOpen =>
          match weekHistory.head? with
          | none => .error (.generic "cannot read properties of undefined")
          | some firstRow =>
            match firstRow.get? 1 with
            | none => .error (.generic "replaceAll of undefined")
            | some closeCell =>
              match getFloat (jsReplaceAll closeCell "," "") ticker with
              | .error e => .error e
              | .ok weekClose => .ok (((weekClose - weekOpen) / weekOpen) * 100)

/-- Record produced by the primary-quote-site adapter
(src/index.ts:24-31). -/
structure YahooFinanceData where
  price : JsNum
  earningsDate : String
  dividendAndYield : String
  exDividendDate : String
  prediction : JsNum
  weekGrowthPercentage : JsNum
deriving DecidableEq

/-- Environment of one `getYahooFinanceData` call: outcomes of the two
navigations, the consent-wall interaction, the five selector waits, the
scraped history rows, and the Monday cutoff `DateTime.local().set({
weekday: 1 }).startOf('day')` computed from the current date.  The consent
button wait resolves to an error, to null, or to a clickable element. -/
structure YahooEnv where
  gotoErr : Option JsError
  consentRedirect : Bool
  consentButton : Except JsError (Option Unit)
  priceExtract : ExtractOutcome
  earningsExtract : ExtractOutcome
  dividendExtract : ExtractOutcome
  exDividendExtract : ExtractOutcome
  predictionExtract : ExtractOutcome
  historyGotoErr : Option JsError
  rows : List (List String)
  monday : Date

/-- Ticker normalisation of src/index.ts:37: only `BRK.B` has its dots
replaced by dashes. -/
def normalizeTicker (ticker : String) : String :=
  if ticker = "BRK.B" then jsReplaceAll ticker "." "-" else ticker

/-- Embedding of the consent handling and the five field extractions of
`getYahooFinanceData` (src/index.ts:42-73), in source order: consent wall
(only when the quote navigation redirected there), price text with comma
stripping and parse, the three date/yield texts, and the prediction text
with parse. -/
def yahooFields (env : YahooEnv) (tick : String) :
    Except JsError (JsNum × String × String × String × JsNum) :=
  match (if env.consentRedirect then
          match env.consentButton with
          | .error e => Except.error e
          | .ok none => Except.error (.generic "acceptTerms not found")
          | .ok (some _) => Except.ok ()
        else Except.ok ()) with
  | .error e => .error e
  | .ok _ =>
    match getElTextFromXpath env.priceExtract with
    | .error e => .error e
    | .ok priceText =>
      match getFloat (jsReplaceAll priceText "," "") (some tick) with
      | .error e => .error e
      | .ok price =>
        match getElTextFromXpath env.earningsExtract with
        | .error e => .error e
        | .ok earningsDate =>
          match getElTextFromXpath env.dividendExtract with
          | .error e => .error e
          | .ok dividendAndYield =>
            match getElTextFromXpath env.exDividendExtract with
            | .error e => .error e
            | .ok exDividendDate =>
              match getElTextFromXpath env.predictionExtract with
              | .error e => .error e
              | .ok predictionText =>
                match getFloat predictionText (some tick) with
                | .error e => .error e
                | .ok prediction =>
                  .ok (price, earningsDate, dividendAndYield, exDividendDate, prediction)

/-- Embedding of the fallible body of `getYahooFinanceData`
(src/index.ts:33-96) up to, but not including, `page.close()`: the quote
navigation, the consent handling and field extractions (`yahooFields`),
then the history navigation and week-growth computation
(src/index.ts:75-84). -/
def yahooCore (env : YahooEnv) (ticker : String) : Except JsError YahooFinanceData :=
  let tick := normalizeTicker ticker
  match env.gotoErr with
  | some e => .error e
  | none =>
    match yahooFields env tick with
    | .error e => .error e
    | .ok (price, earningsDate, dividendAndYield, exDividendDate, prediction) =>
      match env.historyGotoErr with
      | some e => .error e
      | none =>
        match weekGrowthCalc env.rows env.monday (some tick) with
        | .error e => .error e
        | .ok weekGrowthPercentage =>
          .ok ⟨price, earningsDate, dividendAndYield, exDividendDate,
            prediction, weekGrowthPercentage⟩

/-- Embedding of `getYahooFinanceData` (src/index.ts:33-96) with its
page-resource trace.  In the source, `page.close()` (line 86) is the last
action before the return and every fallible step precedes it, so the tab
is closed exactly when the call succeeds. -/
def getYahooFinanceData (env : YahooEnv) (ticker : String) :
    Except JsError YahooFinanceData × List Event :=
  match yahooCore env ticker with
  | .error e => (.error e, [.openPage])
  | .ok d => (.ok d, [.openPage, .closePage])

/-- Per-ticker secondary predictions of the `Summary` interface
(src/index.ts:167-174). -/
structure Predictions where
  zacks : JsNum
  alphaspread : JsNum
  yahoo : JsNum
deriving DecidableEq

/-- Aggregated per-ticker record (src/index.ts:167-174). -/
structure Summary where
  yahooFinance : YahooFinanceData
  predictions : Predictions
deriving DecidableEq

/-- Embedding of `getSummary` (src/index.ts:176-186): the three adapter
calls run under `Promise.all`; rejection wins over the merged record.
`Promise.all` rejects with the temporally first rejection, modelled here
as left-to-right order of the array literal.  On success the primary
record's own prediction is copied into the prediction map. -/
def getSummary (yres : Except JsError YahooFinanceData)
    (zres ares : Except JsError JsNum) : Except JsError Summary :=
  match yres, zres, ares with
  | .ok y, .ok z, .ok a => .ok ⟨y, ⟨z, a, y.prediction⟩⟩
  | .error e, _, _ => .error e
  | .ok _, .error e, _ => .error e
  | .ok _, .ok _, .error e => .error e

/-- First rejection of a list of settled results (the rejection
`Promise.all` propagates, in the array-order model). -/
def firstErr {α : Type} : List (Except JsError α) → Option JsError
  | [] => none
  | .error e :: _ => some e
  | .ok _ :: rest => firstErr rest

/-- One property definition of `Object.fromEntries`: a fresh key is
appended, an existing key is overwritten in place (JavaScript objects keep
the first-insertion position of a string key). -/
def insertEntry (acc : List (String × Summary)) (p : String × Summary) :
    List (String × Summary) :=
  if acc.any (fun q => q.1 = p.1) then
    acc.map (fun q => if q.1 = p.1 then p else q)
  else acc ++ [p]

/-- Model of `Object.fromEntries`, as an insertion-ordered association
list.  For the non-numeric string keys the program uses (tickers), the
`for…in` iteration order of the resulting object is exactly this list
order. -/
def fromEntries (pairs : List (String × Summary)) : List (String × Summary) :=
  pairs.foldl insertEntry []

/-- Embedding of `getSummaries` (src/index.ts:188-196) with its
browser-session trace, against an oracle giving each ticker's aggregation
outcome.  `puppeteer.launch` opens the session; the per-ticker
aggregations run under `Promise.all`.  If every aggregation fulfills, the
results are zipped with the tickers into an object and `browser.close()`
runs; if any aggregation rejects, `await Promise.all` throws the first
rejection and the `browser.close()` line is never reached. -/
def getSummaries (env : String → Except JsError Summary) (tickers : List String) :
    Except JsError (List (String × Summary)) × List Event :=
  match firstErr (tickers.map env) with
  | some e => (.error e, [.openBrowser])
  | none =>
    (.ok (fromEntries (tickers.filterMap (fun t =>
      match env t with
      | .ok s => some (t, s)
      | .error _ => none))), [.openBrowser, .closeBrowser])

/-- Decimal digit string of `n` with a point before the last `k` digits,
zero-padded so an integer part always remains (`decDigits 300 2 = "3.00"`,
`decDigits 5 2 = "0.05"`). -/
def decDigits (n k : Nat) : String :=
  let s := toString n
  let s := if s.length < k + 1 then String.mk (List.replicate (k + 1 - s.length) '0') ++ s
           else s
  if k = 0 then s
  else String.mk (s.toList.take (s.toList.length - k)) ++ "." ++
    String.mk (s.toList.drop (s.toList.length - k))

/-- Fuel search for the smallest decimal-expansion length of a
denominator: the least `k ≤ 20` with `d ∣ 10^k`. -/
def findK (d : Nat) : Nat → Nat → Option Nat
  | 0, _ => none
  | fuel + 1, k => if 10 ^ k % d = 0 then some k else findK d fuel (k + 1)

/-- Model of JavaScript number-to-string conversion (template literals in
src/index.ts:210-229): an integral value prints as its integer digits, a
value with a finite decimal expansion prints that expansion.  JavaScript
prints the shortest decimal that round-trips through binary64; for the
short decimal values this pipeline produces the two agree.  A value with
no finite expansion falls back to a fraction rendering (never produced by
the embedded program on the inputs of any claim). -/
def jsNumToString (q : JsNum) : String :=
  if q.den = 1 then toString q.num
  else
    match findK q.den 21 0 with
    | some k =>
      (if q.num < 0 then "-" else "") ++
        decDigits ((q.num.natAbs * 10 ^ k) / q.den) k
    | none => toString q.num ++ "/" ++ toString q.den

/-- Model of `Number.prototype.toFixed(2)` (src/index.ts:226) on the exact
rational value: round to the nearest hundredth (half away from zero) and
print with exactly two decimals.  JavaScript's `toFixed` rounds the exact
decimal expansion of the binary double; the two agree on the values any
claim exercises. -/
def toFixed2 (q : JsNum) : String :=
  let a : JsNum := ⟨(q.num.natAbs : Int), q.den⟩
  let m : Int := JsNum.floor (a * 100 + JsNum.mk 1 2)
  (if q.num < 0 then "-" else "") ++ decDigits m.toNat 2

/-- Embedding of the per-ticker report line of `processCategory`
(src/index.ts:212-229), including the source's line 217 exactly as
written: `yahooPercentage` is computed from `summary.predictions.
alphaspread`, not from `summary.predictions.yahoo`. -/
def makeLine (ticker : String) (summary : Summary) : String :=
  let price := summary.yahooFinance.price
  let zacksPercentage := growthPercentage price summary.predictions.zacks
  let alphaspreadPercentage := growthPercentage price summary.predictions.alphaspread
  let yahooPercentage := growthPercentage price summary.predictions.alphaspread
  String.intercalate "\t"
    [ticker,
     jsNumToString price,
     jsNumToString summary.predictions.zacks ++ " (" ++
       toString (JsNum.floor zacksPercentage) ++ "%)",
     jsNumToString summary.predictions.alphaspread ++ " (" ++
       toString (JsNum.floor alphaspreadPercentage) ++ "%)",
     jsNumToString summary.predictions.yahoo ++ " (" ++
       toString (JsNum.floor yahooPercentage) ++ "%)",
     toString (JsNum.floor ((zacksPercentage + alphaspreadPercentage + yahooPercentage) / 3)),
     toFixed2 summary.yahooFinance.weekGrowthPercentage ++ "%"]

/-- Embedding of `processCategory` (src/index.ts:206-233): aggregate the
batch; on success write the category header line, one line per object
entry in `for…in` (insertion) order, and a trailing blank line.  On a
batch rejection nothing is written and the rejection propagates. -/
def processCategory (env : String → Except JsError Summary) (category : String)
    (tickers : List String) : Except JsError Unit × List Event :=
  match getSummaries env tickers with
  | (.error e, evs) => (.error e, evs)
  | (.ok entries, evs) =>
    (.ok (), evs ++ [.write category] ++
      entries.map (fun p => .write (makeLine p.1 p.2)) ++ [.write ""])

/-- Lines written to the output file, extracted from a trace. -/
def writtenLines (evs : List Event) : List String :=
  evs.filterMap (fun e =>
    match e with
    | .write s => some s
    | _ => none)

/-- Sequencing of the promise chain of the entry block
(src/index.ts:235-245): each category is processed in turn with a
`sleep(20)` between consecutive categories; the first rejection skips
everything after it, including the final `fs.closeSync`. -/
def runCats (env : String → Except JsError Summary) :
    List (String × List String) → Except JsError Unit × List Event
  | [] => (.ok (), [])
  | (c, ts) :: rest =>
    match processCategory env c ts with
    | (.error e, evs) => (.error e, evs)
    | (.ok _, evs) =>
      match rest with
      | [] => (.ok (), evs)
      | _ =>
        match runCats env rest with
        | (r, evs2) => (r, evs ++ [.sleep] ++ evs2)

/-- Embedding of the entry block (src/index.ts:235-245): open the output
file, run the category chain, and close the file — the close is the last
`.then` of the chain, so it runs only when every category fulfilled. -/
def runDriver (env : String → Except JsError Summary)
    (cats : List (String × List String)) : Except JsError Unit × List Event :=
  match runCats env cats with
  | (r, evs) =>
    (r, [Event.openFd] ++ evs ++
      (match r with
       | .ok _ => [Event.closeFd]
       | .error _ => []))

/-- The hardcoded category configuration of src/index.ts:237-243. -/
def categories : List (String × List String) :=
  [("Safe", ["PG", "JPM", "TXN", "AVGO", "MCD", "KO", "PEP"]),
   ("Safe No Dividends", ["AAPL", "MSFT", "ORCL", "SONY", "BRK.B", "GOOG"]),
   ("REIT", ["SBRA", "OHI"]),
   ("Watchlist", ["CSCO", "JNJ", "HPQ", "SHOP", "NET", "MDB", "QCOM", "V", "SNOW"])]

/-- Sample aggregated record: price 100, predictions zacks 120,
alphaspread 90, yahoo 105 (the spec's end-to-end example), week growth
3%. -/
def sampleSummary : Summary := ⟨⟨100, "", "", "", 105, 3⟩, ⟨120, 90, 105⟩⟩

/-- The value carried by a fulfilled aggregation (junk on a rejection;
only used under an all-fulfilled hypothesis). -/
def okValue (r : Except JsError Summary) : Summary :=
  match r with
  | .ok s => s
  | .error _ => ⟨⟨0, "", "", "", 0, 0⟩, ⟨0, 0, 0⟩⟩

/-- Oracle in which every ticker's aggregation fulfills. -/
def envAllOk : String → Except JsError Summary := fun _ => .ok sampleSummary

/-- Oracle in which exactly the ticker `BBB` rejects. -/
def envOneFails : String → Except JsError Summary :=
  fun t => if t = "BBB" then .error (.generic "boom") else .ok sampleSummary

/-- Oracle in which exactly the ticker `PG` (first ticker of the first
hardcoded category) rejects. -/
def envPGFails : String → Except JsError Summary :=
  fun t => if t = "PG" then .error (.elementTimeout "x") else .ok sampleSummary

/-- Secondary-adapter environment whose selector wait times out. -/
def zacksTimeoutEnv : PageEnv := ⟨none, .timeout "deadline"⟩

/-- Fully successful primary-adapter environment: no consent wall, every
selector resolves to parseable text, and the scraped history has one row
inside the current week. -/
def yahooEnvOk : YahooEnv :=
  ⟨none, false, .ok (some ()), .text (some "1,234.5"), .text (some "Apr 01, 2026"),
   .text (some "2.50 (2.10%)"), .text (some "Mar 01, 2026"), .text (some "1300"),
   none, [["Jan 10, 2026", "105", "100"]], ⟨2026, 1, 5⟩⟩

/-- Primary-adapter environment identical to `yahooEnvOk` except that the
scraped history is empty, so the week filter yields the empty list. -/
def yahooEnvNoWeekRows : YahooEnv :=
  ⟨none, false, .ok (some ()), .text (some "1,234.5"), .text (some "Apr 01, 2026"),
   .text (some "2.50 (2.10%)"), .text (some "Mar 01, 2026"), .text (some "1300"),
   none, [], ⟨2026, 1, 5⟩⟩

/-!
Theorems settling the claims, with their supporting lemmas.
-/

/-- C1: the spec's end-to-end example row.  With price 100 and predictions
zacks 120, alphaspread 90, yahoo 105, the embedded `processCategory` line
shows the yahoo prediction with the alphaspread growth percentage
(src/index.ts:217 passes `summary.predictions.alphaspread` when computing
`yahooPercentage`) and averages the alphaspread percentage twice, so the
written row is `AAA\t100\t120 (20%)\t90 (-10%)\t105 (-10%)\t0\t3.00%`,
not the claimed `AAA\t100\t120 (20%)\t90 (-10%)\t105 (5%)\t5\t3.00%`. -/
theorem c1_yahoo_column_uses_alphaspread :
    makeLine "AAA" ⟨⟨100, "", "", "", 105, 3⟩, ⟨120, 90, 105⟩⟩
        = "AAA\t100\t120 (20%)\t90 (-10%)\t105 (-10%)\t0\t3.00%" ∧
      "AAA\t100\t120 (20%)\t90 (-10%)\t105 (-10%)\t0\t3.00%"
        ≠ "AAA\t100\t120 (20%)\t90 (-10%)\t105 (5%)\t5\t3.00%" :=
  ⟨by decide, by decide⟩

/-- C2 counterexample: a Zacks-adapter element timeout is not absorbed —
`getZacksPrediction` has no try/catch, so the puppeteer `TimeoutError`
propagates instead of yielding a sentinel, and the ticker's aggregation
rejects with it. -/
theorem c2_zacks_timeout_propagates_cex :
    (getZacksPrediction zacksTimeoutEnv).1 = .error (.elementTimeout "deadline") ∧
      getSummary (.ok sampleSummary.yahooFinance) (getZacksPrediction zacksTimeoutEnv).1
          (.ok 90)
        = .error (.elementTimeout "deadline") :=
  ⟨by decide, by decide⟩

/-- C2 amended: only the Alphaspread adapter absorbs an element timeout,
returning the sentinel 0, and a ticker whose other adapters succeed still
aggregates with `predictions.alphaspread = 0`; the Zacks adapter
propagates the timeout. -/
theorem c2_only_alphaspread_absorbs_timeout (msg : String) (y : YahooFinanceData)
    (z : JsNum) :
    (getAlphaspreadPrediction ⟨none, .timeout msg⟩).1 = .ok 0 ∧
      getSummary (.ok y) (.ok z) (getAlphaspreadPrediction ⟨none, .timeout msg⟩).1
        = .ok ⟨y, ⟨z, 0, y.prediction⟩⟩ ∧
      (getZacksPrediction ⟨none, .timeout msg⟩).1 = .error (.elementTimeout msg) :=
  ⟨rfl, rfl, rfl⟩

/-- C9 counterexample: under the runtime's binary64 arithmetic,
`growthPercentage(100, 110)` is not exactly 10 (dividing 110 by 100
rounds, giving 10.000000000000009). -/
theorem c9_growth_not_exact_cex : fpGrowthPercentage 100 110 ≠ 10 := by decide

/-- C9 amended: `growthPercentage` evaluates `((predicted/price) − 1) ×
100` in binary64, exact only up to one rounding per operation:
`growthPercentage(50, 25)` is exactly −50, while `growthPercentage(100,
110)` is exactly 45035996273705000 · 2⁻⁵² ≈ 10.000000000000009. -/
theorem c9_binary64_values :
    fpGrowthPercentage 50 25 = -50 ∧
      fpGrowthPercentage 100 110 = natQ 45035996273705000 / natQ 4503599627370496 ∧
      natQ 45035996273705000 / natQ 4503599627370496 ≠ 10 :=
  ⟨by decide, by decide, by decide⟩

/-- C3 counterexample: when one ticker's aggregation rejects, the batch
orchestrator propagates the rejection but never reaches `browser.close()`
— the session is not released at all, rather than released after all
aggregations settle. -/
theorem c3_browser_not_closed_on_rejection_cex :
    (getSummaries envOneFails ["AAA", "BBB"]).1 = .error (.generic "boom") ∧
      Event.closeBrowser ∉ (getSummaries envOneFails ["AAA", "BBB"]).2 :=
  ⟨by decide, by decide⟩

/-- C4 counterexample: a Zacks-adapter call that fails (selector timeout)
returns with its tab still open — `page.close()` is only reached on the
paths that get past extraction. -/
theorem c4_page_leak_on_failure_cex :
    (getZacksPrediction zacksTimeoutEnv).1.isOk = false ∧
      Event.closePage ∉ (getZacksPrediction zacksTimeoutEnv).2 :=
  ⟨by decide, by decide⟩

/-- C6 counterexample: when a ticker of the first category rejects, the
promise chain of the entry block skips every later `.then`, including the
final `fs.closeSync` — the output stream is never closed on the abort
path. -/
theorem c6_fd_not_closed_on_abort_cex :
    (runDriver envPGFails categories).1 = .error (.elementTimeout "x") ∧
      Event.closeFd ∉ (runDriver envPGFails categories).2 :=
  ⟨by decide, by decide⟩

/-- C3 amended: `getSummaries` closes the browser only on the
all-fulfilled path; it propagates the first rejection and on any rejection
the `browser.close()` line is never reached, so the session is not
released. -/
theorem c3_browser_close_only_on_full_success
    (env : String → Except JsError Summary) (tickers : List String) :
    (firstErr (tickers.map env) = none →
      (getSummaries env tickers).1.isOk = true ∧
        (getSummaries env tickers).2 = [Event.openBrowser, Event.closeBrowser]) ∧
    (∀ e, firstErr (tickers.map env) = some e →
      (getSummaries env tickers).1 = .error e ∧
        Event.closeBrowser ∉ (getSummaries env tickers).2) := by
  constructor
  · intro h
    unfold getSummaries
    rw [h]
    exact ⟨rfl, rfl⟩
  · intro e h
    unfold getSummaries
    rw [h]
    refine ⟨rfl, ?_⟩
    simp

theorem c3_witness :
    (getSummaries envAllOk ["AAA", "BBB"]).2 = [Event.openBrowser, Event.closeBrowser] ∧
      Event.closeBrowser ∉ (getSummaries envOneFails ["AAA", "BBB"]).2 :=
  ⟨((c3_browser_close_only_on_full_success envAllOk ["AAA", "BBB"]).1 (by decide)).2,
   ((c3_browser_close_only_on_full_success envOneFails ["AAA", "BBB"]).2
      (.generic "boom") (by decide)).2⟩

/-- C4 amended: every adapter call that succeeds has closed its page/tab
before returning (for the Alphaspread adapter this includes the
absorbed-timeout path, which succeeds with the sentinel); it is the
propagated-error exits that can leave the tab open. -/
theorem c4_success_paths_close_page (ye : YahooEnv) (t : String) (pz pa : PageEnv) :
    ((getYahooFinanceData ye t).1.isOk = true →
      Event.closePage ∈ (getYahooFinanceData ye t).2) ∧
    ((getZacksPrediction pz).1.isOk = true →
      Event.closePage ∈ (getZacksPrediction pz).2) ∧
    ((getAlphaspreadPrediction pa).1.isOk = true →
      Event.closePage ∈ (getAlphaspreadPrediction pa).2) := by
  refine ⟨?_, ?_, ?_⟩
  · intro h
    unfold getYahooFinanceData at h ⊢
    cases hc : yahooCore ye t with
    | error e => rw [hc] at h; simp [Except.isOk, Except.toBool] at h
    | ok d => simp
  · intro h
    unfold getZacksPrediction at h ⊢
    rcases pz with ⟨g, x⟩
    cases g with
    | some e => simp [Except.isOk, Except.toBool] at h
    | none =>
      cases he : getElTextFromXpath x with
      | error e => simp [he, Except.isOk, Except.toBool] at h
      | ok s => simp [he]
  · intro h
    unfold getAlphaspreadPrediction at h ⊢
    rcases pa with ⟨g, x⟩
    cases g with
    | some e => simp [Except.isOk, Except.toBool] at h
    | none =>
      cases he : getElTextFromXpath x with
      | error e =>
        cases e <;> simp [he, Except.isOk, Except.toBool] at h ⊢
      | ok s => simp [he]

theorem c4_witness :
    Event.closePage ∈ (getYahooFinanceData yahooEnvOk "AAA").2 ∧
      Event.closePage ∈ (getZacksPrediction ⟨none, .text (some "$15")⟩).2 ∧
      Event.closePage ∈ (getAlphaspreadPrediction ⟨none, .timeout "t"⟩).2 :=
  ⟨(c4_success_paths_close_page yahooEnvOk "AAA" ⟨none, .text (some "$15")⟩
      ⟨none, .timeout "t"⟩).1 (by decide),
   (c4_success_paths_close_page yahooEnvOk "AAA" ⟨none, .text (some "$15")⟩
      ⟨none, .timeout "t"⟩).2.1 (by decide),
   (c4_success_paths_close_page yahooEnvOk "AAA" ⟨none, .text (some "$15")⟩
      ⟨none, .timeout "t"⟩).2.2 (by decide)⟩

lemma getSummaries_trace (env : String → Except JsError Summary) (ts : List String) :
    (getSummaries env ts).2 = [Event.openBrowser] ∨
      (getSummaries env ts).2 = [Event.openBrowser, Event.closeBrowser] := by
  unfold getSummaries
  cases firstErr (ts.map env) with
  | none => exact Or.inr rfl
  | some e => exact Or.inl rfl

lemma processCategory_no_fd (env : String → Except JsError Summary) (c : String)
    (ts : List String) :
    Event.openFd ∉ (processCategory env c ts).2 ∧
      Event.closeFd ∉ (processCategory env c ts).2 := by
  unfold processCategory
  rcases hbr : getSummaries env ts with ⟨r, evs⟩
  have hevs : evs = [Event.openBrowser] ∨ evs = [Event.openBrowser, Event.closeBrowser] := by
    have h := getSummaries_trace env ts
    rw [hbr] at h
    exact h
  cases r with
  | error e => rcases hevs with h | h <;> subst h <;> exact ⟨by simp, by simp⟩
  | ok entries =>
    rcases hevs with h | h <;> subst h <;>
      exact ⟨by simp [List.mem_append], by simp [List.mem_append]⟩

lemma runCats_no_fd (env : String → Except JsError Summary) :
    ∀ cats, Event.openFd ∉ (runCats env cats).2 ∧ Event.closeFd ∉ (runCats env cats).2 := by
  intro cats
  induction cats with
  | nil => simp [runCats]
  | cons head rest ih =>
    rcases head with ⟨c, ts⟩
    unfold runCats
    rcases hp : processCategory env c ts with ⟨r, evs⟩
    have hno := processCategory_no_fd env c ts
    rw [hp] at hno
    cases r with
    | error e => exact hno
    | ok u =>
      cases rest with
      | nil => exact hno
      | cons c2 rest2 =>
        rcases hr : runCats env (c2 :: rest2) with ⟨r2, evs2⟩
        rw [hr] at ih
        constructor
        · intro hm
          simp [List.mem_append] at hm
          rcases hm with hm | hm
          · exact hno.1 hm
          · exact ih.1 hm
        · intro hm
          simp [List.mem_append] at hm
          rcases hm with hm | hm
          · exact hno.2 hm
          · exact ih.2 hm

/-- C6 amended: the run driver opens the output stream exactly once,
before the first category; it closes it exactly once when every category
fulfilled, but on the abort path (the chain's result is a rejection) the
close is skipped entirely and the stream is never closed before the
process ends. -/
theorem c6_fd_lifecycle (env : String → Except JsError Summary)
    (cats : List (String × List String)) :
    (runDriver env cats).2.head? = some Event.openFd ∧
      (runDriver env cats).2.count Event.openFd = 1 ∧
      ((runDriver env cats).1.isOk = true →
        (runDriver env cats).2.count Event.closeFd = 1) ∧
      ((runDriver env cats).1.isOk = false →
        Event.closeFd ∉ (runDriver env cats).2) := by
  unfold runDriver
  rcases hr : runCats env cats with ⟨r, evs⟩
  have hno := runCats_no_fd env cats
  rw [hr] at hno
  have hcount1 : evs.count Event.openFd = 0 := List.count_eq_zero.mpr hno.1
  have hcount2 : evs.count Event.closeFd = 0 := List.count_eq_zero.mpr hno.2
  cases r with
  | ok u =>
    refine ⟨rfl, ?_, ?_, ?_⟩
    · simp [List.count_append, hcount1]
    · intro _
      simp [List.count_append, hcount2]
    · intro hbad
      simp [Except.isOk, Except.toBool] at hbad
  | error e =>
    refine ⟨rfl, ?_, ?_, ?_⟩
    · simp [List.count_append, hcount1]
    · intro hok
      simp [Except.isOk, Except.toBool] at hok
    · intro _
      intro hm
      simp [List.mem_append] at hm
      exact hno.2 hm

theorem c6_witness :
    (runDriver envAllOk [("Cat", ["AAA"])]).2.count Event.closeFd = 1 ∧
      Event.closeFd ∉ (runDriver envPGFails categories).2 :=
  ⟨(c6_fd_lifecycle envAllOk [("Cat", ["AAA"])]).2.2.1 (by decide),
   (c6_fd_lifecycle envPGFails categories).2.2.2 (by decide)⟩

lemma foldl_insertEntry_eq :
    ∀ (pairs acc : List (String × Summary)),
      (pairs.map Prod.fst).Nodup →
      (∀ p ∈ pairs, ∀ q ∈ acc, q.1 ≠ p.1) →
      pairs.foldl insertEntry acc = acc ++ pairs := by
  intro pairs
  induction pairs with
  | nil => intro acc _ _; simp
  | cons p ps ih =>
    intro acc hnd hdisj
    have hnotin : acc.any (fun q => q.1 = p.1) = false := by
      cases hA : acc.any (fun q => q.1 = p.1)
      · rfl
      · exfalso
        rcases List.any_eq_true.mp hA with ⟨q, hq, hq1⟩
        exact hdisj p (by simp) q hq (of_decide_eq_true hq1)
    have hins : insertEntry acc p = acc ++ [p] := by
      unfold insertEntry
      rw [hnotin]
      simp
    rw [List.foldl_cons, hins]
    rw [List.map_cons, List.nodup_cons] at hnd
    rw [ih (acc ++ [p]) hnd.2 ?_]
    · simp
    · intro r hr q hq
      rcases List.mem_append.mp hq with hq' | hq'
      · exact hdisj r (by simp [hr]) q hq'
      · have hqp : q = p := by simpa using hq'
        subst hqp
        intro hEq
        exact hnd.1 (hEq ▸ List.mem_map_of_mem Prod.fst hr)

lemma fromEntries_eq_self (pairs : List (String × Summary))
    (h : (pairs.map Prod.fst).Nodup) : fromEntries pairs = pairs := by
  unfold fromEntries
  have hres := foldl_insertEntry_eq pairs [] h (by intro p _ q hq; simp at hq)
  simpa using hres

lemma filterMap_of_firstErr_none (env : String → Except JsError Summary) :
    ∀ (l : List String), firstErr (l.map env) = none →
      (l.filterMap (fun t => match env t with
        | .ok s => some (t, s)
        | .error _ => none)) = l.map (fun t => (t, okValue (env t))) := by
  intro l
  induction l with
  | nil => intro _; rfl
  | cons t rest ih =>
    intro h
    rw [List.map_cons] at h
    cases he : env t with
    | error e => rw [he] at h; exact absurd h (by simp [firstErr])
    | ok s =>
      rw [he] at h
      have h' : firstErr (rest.map env) = none := h
      simp only [List.filterMap_cons, List.map_cons, he, okValue, ih h']

lemma writtenLines_append (l1 l2 : List Event) :
    writtenLines (l1 ++ l2) = writtenLines l1 ++ writtenLines l2 := by
  unfold writtenLines
  exact List.filterMap_append l1 l2 _

lemma writtenLines_write_map (l : List String) (f : String → String) :
    writtenLines (l.map (fun t => Event.write (f t))) = l.map f := by
  induction l with
  | nil => rfl
  | cons t rest ih =>
    simp only [List.map_cons, writtenLines, List.filterMap_cons] at ih ⊢
    rw [ih]

lemma map_fst_pairs (env : String → Except JsError Summary) :
    ∀ l : List String, List.map Prod.fst (l.map fun t => (t, okValue (env t))) = l := by
  intro l
  induction l with
  | nil => rfl
  | cons a l ih =>
    rw [List.map_cons, List.map_cons, ih]

lemma processCategory_lines (env : String → Except JsError Summary) (cat : String)
    (tickers : List String) (hnd : tickers.Nodup)
    (hok : firstErr (tickers.map env) = none) :
    writtenLines (processCategory env cat tickers).2
      = cat :: (tickers.map (fun t => makeLine t (okValue (env t))) ++ [""]) := by
  have hkeys : List.map Prod.fst (tickers.map fun t => (t, okValue (env t))) = tickers :=
    map_fst_pairs env tickers
  have hfm := filterMap_of_firstErr_none env tickers hok
  have hfe : fromEntries (tickers.map fun t => (t, okValue (env t)))
      = tickers.map fun t => (t, okValue (env t)) :=
    fromEntries_eq_self _ (by rw [hkeys]; exact hnd)
  have hgs : getSummaries env tickers
      = (.ok (tickers.map fun t => (t, okValue (env t))),
         [Event.openBrowser, Event.closeBrowser]) := by
    unfold getSummaries
    rw [hok]
    simp only [hfm, hfe]
  unfold processCategory
  rw [hgs]
  show writtenLines ([Event.openBrowser, Event.closeBrowser] ++ [Event.write cat] ++
      (tickers.map fun t => (t, okValue (env t))).map
        (fun p => Event.write (makeLine p.1 p.2)) ++ [Event.write ""])
    = cat :: (tickers.map (fun t => makeLine t (okValue (env t))) ++ [""])
  rw [List.map_map]
  have hcomp :
      ((fun p : String × Summary => Event.write (makeLine p.1 p.2)) ∘
        (fun t => (t, okValue (env t))))
        = fun t => Event.write (makeLine t (okValue (env t))) := rfl
  rw [hcomp]
  rw [writtenLines_append, writtenLines_append, writtenLines_append]
  rw [writtenLines_write_map tickers (fun t => makeLine t (okValue (env t)))]
  rfl

/-- C7: for a category whose batch aggregation fulfills for every ticker
(and whose ticker list has no duplicates, as every hardcoded category list
does), the report writer emits exactly one header line, one line per
ticker, and one trailing blank line: the ticker count plus two. -/
theorem c7_line_count (env : String → Except JsError Summary) (cat : String)
    (tickers : List String) (hnd : tickers.Nodup)
    (hok : firstErr (tickers.map env) = none) :
    (writtenLines (processCategory env cat tickers).2).length = tickers.length + 2 := by
  rw [processCategory_lines env cat tickers hnd hok]
  simp [List.length_append, List.length_map]

theorem c7_witness :
    (writtenLines (processCategory envAllOk "Cat" ["AAA", "BBB"]).2).length = 4 :=
  c7_line_count envAllOk "Cat" ["AAA", "BBB"] (by decide) (by decide)

/-- C8: for a successfully aggregated batch (duplicate-free ticker list),
the data lines are emitted in the caller-supplied ticker order: the
written lines are exactly the header, the tickers' lines in list order,
and the trailing blank. -/
theorem c8_report_order (env : String → Except JsError Summary) (cat : String)
    (tickers : List String) (hnd : tickers.Nodup)
    (hok : firstErr (tickers.map env) = none) :
    writtenLines (processCategory env cat tickers).2
      = cat :: (tickers.map (fun t => makeLine t (okValue (env t))) ++ [""]) :=
  processCategory_lines env cat tickers hnd hok

theorem c8_witness :
    writtenLines (processCategory envOneFails "Cat" ["CCC", "AAA"]).2
      = ["Cat", makeLine "CCC" sampleSummary, makeLine "AAA" sampleSummary, ""] :=
  c8_report_order envOneFails "Cat" ["CCC", "AAA"] (by decide) (by decide)

lemma weekGrowthCalc_not_ok (rows : List (List String)) (monday : Date)
    (t : Option String) (h : rows.filter (rowInWeek monday) = []) :
    (weekGrowthCalc rows monday t).isOk = false := by
  unfold weekGrowthCalc
  split
  · rfl
  · rw [h]
    rfl

/-- C10: the week-growth computation indexes the filtered week history
without a guard, so whenever the filter keeps no row (no extracted row's
leading date parses and falls on or after the Monday cutoff),
`getYahooFinanceData` fails for that ticker instead of returning a
record. -/
theorem c10_empty_week_history_fails (env : YahooEnv) (ticker : String)
    (h : env.rows.filter (rowInWeek env.monday) = []) :
    (getYahooFinanceData env ticker).1.isOk = false := by
  unfold getYahooFinanceData
  cases hc : yahooCore env ticker with
  | error e => simp [Except.isOk, Except.toBool]
  | ok d =>
    exfalso
    have hw := weekGrowthCalc_not_ok env.rows env.monday
      (some (normalizeTicker ticker)) h
    unfold yahooCore at hc
    simp only [] at hc
    cases hg : env.gotoErr with
    | some e => simp [hg] at hc
    | none =>
      simp only [hg] at hc
      cases hf : yahooFields env (normalizeTicker ticker) with
      | error e => simp [hf] at hc
      | ok fields =>
        rcases fields with ⟨price, eD, dY, xD, pred⟩
        simp only [hf] at hc
        cases hh : env.historyGotoErr with
        | some e => simp [hh] at hc
        | none =>
          simp only [hh] at hc
          cases hwk : weekGrowthCalc env.rows env.monday (some (normalizeTicker ticker)) with
          | error e => simp [hwk] at hc
          | ok wg => rw [hwk] at hw; simp [Except.isOk, Except.toBool] at hw

theorem c10_witness :
    (getYahooFinanceData yahooEnvNoWeekRows "AAA").1.isOk = false :=
  c10_empty_week_history_fails yahooEnvNoWeekRows "AAA" (by decide)

lemma takeWhile_eq_of_all {p : Char → Bool} {l : List Char} (h : l.all p = true) :
    l.takeWhile p = l :=
  List.takeWhile_eq_self_iff.mpr (by simpa using h)

lemma dropWhile_eq_nil_of_all {p : Char → Bool} {l : List Char} (h : l.all p = true) :
    l.dropWhile p = [] :=
  List.dropWhile_eq_nil_iff.mpr (by simpa using h)

lemma digit_not_ws (c : Char) (h : c.isDigit = true) : isWsChar c = false := by
  simp only [isWsChar, decide_eq_false_iff_not]
  intro hor
  rcases hor with h1 | h1 | h1 | h1 <;> subst h1 <;> exact absurd h (by decide)

lemma specUnsigned_parse (cs : List Char) (u : JsNum)
    (h : specUnsignedValue cs = some u) : parseUnsignedDec cs = some (u, []) := by
  unfold specUnsignedValue at h
  unfold parseUnsignedDec
  cases hr : cs.dropWhile Char.isDigit with
  | nil =>
    simp only [hr] at h ⊢
    by_cases hds : cs.takeWhile Char.isDigit = []
    · rw [if_pos hds] at h
      cases h
    · rw [if_neg hds] at h ⊢
      injection h with h1
      rw [h1]
  | cons c fs =>
    simp only [hr] at h ⊢
    split at h
    case isTrue hcond =>
      obtain ⟨hdot, hall, hne⟩ := hcond
      subst hdot
      injection h with h1
      rw [if_pos rfl]
      rw [takeWhile_eq_of_all hall, dropWhile_eq_nil_of_all hall]
      rw [if_neg hne]
      rw [h1]
    case isFalse => cases h

lemma specUnsigned_head (c : Char) (tl : List Char) {u : JsNum}
    (h : specUnsignedValue (c :: tl) = some u) : c.isDigit = true ∨ c = '.' := by
  cases hd : c.isDigit with
  | true => exact Or.inl rfl
  | false =>
    right
    unfold specUnsignedValue at h
    simp only [List.dropWhile_cons, hd, Bool.false_eq_true, if_false] at h
    by_contra hne
    rw [if_neg (fun hcond => hne hcond.1)] at h
    cases h

lemma parseUnsignedDecExp_of_spec (cs : List Char) (u : JsNum)
    (h : specUnsignedValue cs = some u) : parseUnsignedDecExp cs = some u := by
  unfold parseUnsignedDecExp
  rw [specUnsigned_parse cs u h]
  rfl

lemma spec_imp_js (s : String) (v : JsNum) (h : specDecimalValue s = some v) :
    jsParseFloat s = some v := by
  unfold specDecimalValue at h
  unfold jsParseFloat
  cases hs : s.toList with
  | nil =>
    rw [hs] at h
    exact Option.noConfusion h
  | cons c tl =>
    rw [hs] at h
    replace h : (if c = '-' then (specUnsignedValue tl).map (fun x => -x)
        else specUnsignedValue (c :: tl)) = some v := h
    by_cases hneg : c = '-'
    · subst hneg
      rw [if_pos rfl] at h
      rcases Option.map_eq_some'.mp h with ⟨u, hu, hvu⟩
      rw [show ('-' :: tl).dropWhile isWsChar = '-' :: tl from by
        simp [List.dropWhile_cons, isWsChar]]
      simp only [parseSigned, if_true]
      rw [parseUnsignedDecExp_of_spec tl u hu]
      simp [hvu]
    · rw [if_neg hneg] at h
      have hhead := specUnsigned_head c tl h
      have hws : isWsChar c = false := by
        rcases hhead with hd | hd
        · exact digit_not_ws c hd
        · subst hd; decide
      have hplus : c ≠ '+' := by
        rcases hhead with hd | hd
        · intro he; subst he; exact absurd hd (by decide)
        · subst hd; decide
      rw [show (c :: tl).dropWhile isWsChar = c :: tl from by
        simp [List.dropWhile_cons, hws]]
      simp only [parseSigned]
      rw [if_neg hneg, if_neg hplus]
      exact parseUnsignedDecExp_of_spec (c :: tl) v h

/-- C5: the contract of `getFloat`.  It fails with the empty-value error
exactly when the text is the empty string; for a non-empty text on which
`parseFloat` yields NaN it fails with the not-a-number error carrying the
text; and for every string of the strict decimal grammar (the spec's
non-empty numeric strings) it returns exactly the string's decimal value.
The embedding is a pure function, so it has no side effects. -/
theorem c5_getFloat_contract (s : String) (t : Option String) (v : JsNum) :
    getFloat "" t = .error (.emptyValue t) ∧
      (getFloat s t = .error (.emptyValue t) → s = "") ∧
      (s ≠ "" → jsParseFloat s = none → getFloat s t = .error (.notANumber s)) ∧
      (specDecimalValue s = some v → getFloat s t = .ok v) := by
  refine ⟨rfl, ?_, ?_, ?_⟩
  · intro hEmp
    by_contra hne
    unfold getFloat at hEmp
    rw [if_neg hne] at hEmp
    cases hp : jsParseFloat s with
    | none => rw [hp] at hEmp; simp at hEmp
    | some u => rw [hp] at hEmp; simp at hEmp
  · intro hne hp
    unfold getFloat
    rw [if_neg hne, hp]
  · intro hd
    have hjs := spec_imp_js s v hd
    have hne : s ≠ "" := by
      intro he
      subst he
      exact Option.noConfusion hjs
    unfold getFloat
    rw [if_neg hne, hjs]

theorem c5_witness :
    getFloat "" none = .error (.emptyValue none) ∧
      getFloat "abc" none = .error (.notANumber "abc") ∧
      getFloat "12.5" none = .ok ⟨25, 2⟩ :=
  ⟨(c5_getFloat_contract "" none 0).1,
   (c5_getFloat_contract "abc" none 0).2.2.1 (by decide) (by decide),
   (c5_getFloat_contract "12.5" none ⟨25, 2⟩).2.2.2 (by decide)⟩
